import Mathlib

/-
Verification of the signal/process combinator core of `reactrust`
(src/src/signals/signals.rs).

The combinators (`EmitProcess`, `AwaitProcess`, `AwaitImmediateProcess`,
`PresentProcess` and the `Signal` constructors) are embedded from the
source file.  The collaborators that the source only imports
(`Runtime`, `SignalRuntimeRef`, `Continuation`) are not part of the
repository snapshot, so they are modelled from the spec (sections 5 and 6);
each such definition says so in its doc comment.

Modelling choices:
  * signal identities, emission payloads `E` and signal values `V` are
    all `Nat` (the Rust code is generic; none of the verified claims
    depends on the payload type);
  * the accumulation rule for several emissions in one instant — which
    the spec explicitly leaves to the collaborator (section 9, open
    question) — is taken to be addition starting from 0;
  * Rust closures are defunctionalized: `Kont` is the type of
    continuations, `Callback` the type of callbacks registered with the
    signal runtime, and `CellVal` the contents of the shared
    `Rc<Cell<Option<...>>>` cells used by `PresentProcess`;
  * `Cell::take().unwrap()` on an empty cell panics; the model records
    this in the `panicked` flag of the runtime state;
  * interpreter recursion through continuations stored in cells is
    bounded by an explicit fuel argument; exhaustion sets `outOfFuel`
    (it never happens in the runs below).
-/

namespace Reactrust

/-- Per-signal state for the current instant: the presence flag and the
accumulated value.  Modelled from the spec: the repository snapshot does
not contain `signals/runtime.rs`, only its interface is described
(spec sections 3, 5, 6). -/
structure SigSt where
  present : Bool
  value   : Nat
deriving Repr, DecidableEq

/-- Deep embedding of the four combinator process shapes of
`signals.rs`: `EmitProcess` (signal + value), `AwaitProcess`,
`AwaitImmediateProcess` (a signal each) and `PresentProcess`
(signal + two branch sub-processes).  A `Nat` stands for the signal
identity (all clones of one Rust `Signal` handle share one identity,
matching the shared `SignalRuntimeRef`). -/
inductive Proc where
  | emitProcess (sig value : Nat)
  | awaitProcess (sig : Nat)
  | awaitImmediateProcess (sig : Nat)
  | presentProcess (sig : Nat) (pIf pElse : Proc)
deriving Repr, DecidableEq

/-- Defunctionalized continuations.  `top`/`topMut` are the external
continuations handed to `call`/`call_mut` (they record their argument
in the observable output); `probe s` is an external test continuation
recording whether signal `s` is present at invocation time;
`awaitWrap`/`awaitImmWrap` are the closures built inside
`AwaitProcess::call_mut` (line 113) and `AwaitImmediateProcess::call_mut`
(line 161); `presentIfInner`/`presentElseInner` are the inner closures of
`PresentProcess::call_mut` (lines 314 and 322), which hold the ids of the
shared cells for the signal clone, the not-taken branch and the outer
continuation. -/
inductive Kont where
  | top
  | topMut
  | probe (sig : Nat)
  | awaitWrap (sig : Nat) (k : Kont)
  | awaitImmWrap (sig : Nat) (k : Kont)
  | presentIfInner (sigCell elseCell nextCell : Nat)
  | presentElseInner (sigCell ifCell nextCell : Nat)
deriving Repr, DecidableEq

/-- Contents of a shared `Rc<Cell<Option<...>>>` cell: a continuation, a
process, or a signal handle. -/
inductive CellVal where
  | kont (k : Kont)
  | proc (p : Proc)
  | sig (s : Nat)
deriving Repr, DecidableEq

/-- Defunctionalized callbacks registered with the signal runtime.
`invoke k` registers the continuation `k` itself (as in
`AwaitProcess::call`, line 98, where `next` is registered directly, and
in the `call_mut` variants where the registered closure only invokes a
wrapper continuation).  `presentIf`/`presentElse` are the two closures
of `PresentProcess::call` (lines 270 and 277): they hold the branch
process directly and the id of the shared continuation cell.
`presentMutIf`/`presentMutElse` are the two closures of
`PresentProcess::call_mut` (lines 313 and 321): there everything —
both branch processes, the signal clone and the continuation — lives in
shared cells, so only cell ids are captured. -/
inductive Callback where
  | invoke (k : Kont)
  | presentIf (p : Proc) (nextCell : Nat)
  | presentElse (p : Proc) (nextCell : Nat)
  | presentMutIf (ifCell elseCell sigCell nextCell : Nat)
  | presentMutElse (ifCell elseCell sigCell nextCell : Nat)
deriving Repr, DecidableEq

/-- Log entry for each `SignalRuntimeRef` operation performed, in order;
this is the observable trace of runtime interactions. -/
inductive RegEvent where
  | emitEv (sig value : Nat)
  | onPresentEv (sig : Nat)
  | laterOnPresentEv (sig : Nat)
  | laterOnAbsentEv (sig : Nat)
deriving Repr, DecidableEq

/-- Global runtime state.  Modelled from the spec (sections 5, 6): the
instant-stepping driver holds, for the current instant, the queue of
callbacks ready to run (`curQ`, each with the argument it will be fired
with), the callbacks waiting on presence this instant (`onPresentW`),
and the deferred registrations (`laterOnPresentW`, `laterOnAbsentW`)
resolved at the end of the instant.  `cells` is the heap of shared
take-once cells, `output` records every invocation of an external
continuation (the re-usable process, when the invocation came through
`call_mut`, and the value), and `log` records every `SignalRuntimeRef`
operation. -/
structure RT where
  sigs            : Nat → SigSt
  curQ            : List (Callback × Nat)
  onPresentW      : List (Nat × Callback)
  laterOnPresentW : List (Nat × Callback)
  laterOnAbsentW  : List (Nat × Callback)
  cells           : Nat → Option CellVal
  nextCell        : Nat
  output          : List (Option Proc × Nat)
  log             : List RegEvent
  panicked        : Bool
  outOfFuel       : Bool

/-- Fresh runtime state: no signal present, nothing queued, no cells. -/
def RT.init : RT :=
  { sigs := fun _ => ⟨false, 0⟩
    curQ := []
    onPresentW := []
    laterOnPresentW := []
    laterOnAbsentW := []
    cells := fun _ => none
    nextCell := 0
    output := []
    log := []
    panicked := false
    outOfFuel := false }

/-- Modelled from the spec (section 6): `SignalRuntimeRef::emit` records
an emission: the signal becomes present (idempotently), the value is
folded into the signal's current value, and every `on_present` callback
waiting on this signal becomes ready to run later in the same instant
(section 5, guarantee 1: monotonicity within an instant). -/
def RT.emit (rt : RT) (s v : Nat) : RT :=
  let st := rt.sigs s
  { rt with
    sigs := fun n => if n = s then ⟨true, st.value + v⟩ else rt.sigs n
    curQ := rt.curQ ++ (rt.onPresentW.filter (fun e => e.1 == s)).map (fun e => (e.2, 0))
    onPresentW := rt.onPresentW.filter (fun e => ¬ (e.1 == s))
    log := rt.log ++ [RegEvent.emitEv s v] }

/-- Modelled from the spec (section 6): `SignalRuntimeRef::on_present`
invokes the callback this instant once presence is known true; if the
signal is already present the callback is immediately ready, otherwise
it waits for an emission this instant. -/
def RT.on_present (rt : RT) (s : Nat) (cb : Callback) : RT :=
  if (rt.sigs s).present then
    { rt with
      curQ := rt.curQ ++ [(cb, 0)]
      log := rt.log ++ [RegEvent.onPresentEv s] }
  else
    { rt with
      onPresentW := rt.onPresentW ++ [(s, cb)]
      log := rt.log ++ [RegEvent.onPresentEv s] }

/-- Modelled from the spec (section 6): `SignalRuntimeRef::later_on_present`
defers the callback; it fires at the start of the instant after presence
was established, with the signal's accumulated value. -/
def RT.later_on_present (rt : RT) (s : Nat) (cb : Callback) : RT :=
  { rt with
    laterOnPresentW := rt.laterOnPresentW ++ [(s, cb)]
    log := rt.log ++ [RegEvent.laterOnPresentEv s] }

/-- Modelled from the spec (section 6): `SignalRuntimeRef::later_on_absent`
defers the callback; it fires at the start of the next instant if the
current instant finalizes with no emission. -/
def RT.later_on_absent (rt : RT) (s : Nat) (cb : Callback) : RT :=
  { rt with
    laterOnAbsentW := rt.laterOnAbsentW ++ [(s, cb)]
    log := rt.log ++ [RegEvent.laterOnAbsentEv s] }

/-- Allocate a fresh shared cell holding `v`; returns the new state and
the cell id (embeds `Rc::new(Cell::new(Some(v)))`). -/
def RT.alloc (rt : RT) (v : CellVal) : RT × Nat :=
  ({ rt with
      cells := fun n => if n = rt.nextCell then some v else rt.cells n
      nextCell := rt.nextCell + 1 },
   rt.nextCell)

/-- Take the contents of cell `i`, leaving it empty (embeds
`Cell::take()`, which replaces the contents with `None`). -/
def RT.takeCell (rt : RT) (i : Nat) : RT × Option CellVal :=
  ({ rt with cells := fun n => if n = i then none else rt.cells n },
   rt.cells i)

/-- Mark the state as panicked (embeds `Option::unwrap` on `None`). -/
def RT.panic (rt : RT) : RT := { rt with panicked := true }

/-- Invoke a defunctionalized continuation with a (possibly absent)
re-usable process and a value.  `top`, `topMut` and `probe` are the
external observers; the others are the closures from `signals.rs`:
`awaitWrap s k` is `|r, v| next.call(r, (s2.await(), v))` (line 113),
`awaitImmWrap s k` is `|r, v| next.call(r, (s2.await_immediate(), ()))`
(line 161), and `presentIfInner`/`presentElseInner` are the inner
closures of `PresentProcess::call_mut` (lines 314-317 and 322-325):
take the signal clone and the not-taken branch from their shared cells,
rebuild `signal.present(...)`, take the outer continuation from its
cell and invoke it with the rebuilt process and the branch value. -/
def invokeKont : Nat → Kont → Option Proc → Nat → RT → RT
  | _, Kont.top, _, v, rt => { rt with output := rt.output ++ [(none, v)] }
  | _, Kont.topMut, p, v, rt => { rt with output := rt.output ++ [(p, v)] }
  | _, Kont.probe s, _, _, rt =>
      { rt with output := rt.output ++ [(none, if (rt.sigs s).present then 1 else 0)] }
  | Nat.succ fuel, Kont.awaitWrap s k, _, v, rt =>
      invokeKont fuel k (some (Proc.awaitProcess s)) v rt
  | Nat.succ fuel, Kont.awaitImmWrap s k, _, _, rt =>
      invokeKont fuel k (some (Proc.awaitImmediateProcess s)) 0 rt
  | Nat.succ fuel, Kont.presentIfInner sigCell elseCell nextCell, pOpt, v, rt =>
      match pOpt with
      | none => rt.panic
      | some p =>
        match rt.takeCell sigCell with
        | (rt1, some (CellVal.sig s)) =>
          match rt1.takeCell elseCell with
          | (rt2, some (CellVal.proc pe)) =>
            let pr := Proc.presentProcess s p pe
            match rt2.takeCell nextCell with
            | (rt3, some (CellVal.kont k)) => invokeKont fuel k (some pr) v rt3
            | (rt3, _) => rt3.panic
          | (rt2, _) => rt2.panic
        | (rt1, _) => rt1.panic
  | Nat.succ fuel, Kont.presentElseInner sigCell ifCell nextCell, pOpt, v, rt =>
      match pOpt with
      | none => rt.panic
      | some p =>
        match rt.takeCell sigCell with
        | (rt1, some (CellVal.sig s)) =>
          match rt1.takeCell ifCell with
          | (rt2, some (CellVal.proc pi)) =>
            let pr := Proc.presentProcess s pi p
            match rt2.takeCell nextCell with
            | (rt3, some (CellVal.kont k)) => invokeKont fuel k (some pr) v rt3
            | (rt3, _) => rt3.panic
          | (rt2, _) => rt2.panic
        | (rt1, _) => rt1.panic
  | 0, _, _, _, rt => { rt with outOfFuel := true }

/-- Embedding of `Process::call` for the four combinators of
`signals.rs`.  `EmitProcess::call` (lines 194-199): emit the value,
then invoke the continuation with `()` synchronously.
`AwaitProcess::call` (lines 97-99): register the continuation itself
via `later_on_present`.  `AwaitImmediateProcess::call` (lines 145-147):
register it via `on_present`.  `PresentProcess::call` (lines 258-280):
put the continuation into a fresh shared cell, register the presence
closure via `on_present`, then the absence closure via
`later_on_absent`; both closures reference the same cell. -/
def Process.call (fuel : Nat) : Proc → Kont → RT → RT
  | Proc.emitProcess s v, next, rt =>
      invokeKont fuel next none 0 (rt.emit s v)
  | Proc.awaitProcess s, next, rt =>
      rt.later_on_present s (Callback.invoke next)
  | Proc.awaitImmediateProcess s, next, rt =>
      rt.on_present s (Callback.invoke next)
  | Proc.presentProcess s p1 p2, next, rt =>
      let (rt1, c) := rt.alloc (CellVal.kont next)
      let rt2 := rt1.on_present s (Callback.presentIf p1 c)
      rt2.later_on_absent s (Callback.presentElse p2 c)

/-- Embedding of `ProcessMut::call_mut` for the four combinators of
`signals.rs`.  `EmitProcess::call_mut` (lines 209-217): emit a clone of
the value, then invoke the continuation synchronously with
`(signal.emit_value(value), ())` — a process identical to the original.
`AwaitProcess::call_mut` (lines 109-116) and
`AwaitImmediateProcess::call_mut` (lines 157-164): same registration as
`call`, with the wrapper closure as the callback.
`PresentProcess::call_mut` (lines 293-327): put a clone of the signal,
the continuation, `process_if` and `process_else` into four fresh shared
cells, register the presence closure via `on_present`, then the absence
closure via `later_on_absent`; both closures share all four cells. -/
def ProcessMut.call_mut (fuel : Nat) : Proc → Kont → RT → RT
  | Proc.emitProcess s v, next, rt =>
      invokeKont fuel next (some (Proc.emitProcess s v)) 0 (rt.emit s v)
  | Proc.awaitProcess s, next, rt =>
      rt.later_on_present s (Callback.invoke (Kont.awaitWrap s next))
  | Proc.awaitImmediateProcess s, next, rt =>
      rt.on_present s (Callback.invoke (Kont.awaitImmWrap s next))
  | Proc.presentProcess s p1 p2, next, rt =>
      let (rt1, cSig) := rt.alloc (CellVal.sig s)
      let (rt2, cNext) := rt1.alloc (CellVal.kont next)
      let (rt3, cIf) := rt2.alloc (CellVal.proc p1)
      let (rt4, cElse) := rt3.alloc (CellVal.proc p2)
      let rt5 := rt4.on_present s (Callback.presentMutIf cIf cElse cSig cNext)
      rt5.later_on_absent s (Callback.presentMutElse cIf cElse cSig cNext)

/-- Fire a registered callback with its argument.  `invoke k` just
invokes the continuation.  `presentIf p c` is the presence closure of
`PresentProcess::call` (lines 270-272): `process_if.call(r,
next_1.take().unwrap())` — take the shared continuation cell (panic if
it is already empty) and run the branch with it; `presentElse` is the
absence closure (lines 277-279), symmetric.  `presentMutIf` is the
presence closure of `PresentProcess::call_mut` (lines 313-318): take
`process_if` from its shared cell (panic if empty) and run its
`call_mut` with the `presentIfInner` continuation; `presentMutElse`
(lines 321-326) is symmetric. -/
def fireCallback (fuel : Nat) : Callback → Nat → RT → RT
  | Callback.invoke k, v, rt => invokeKont fuel k none v rt
  | Callback.presentIf p c, _, rt =>
      match rt.takeCell c with
      | (rt1, some (CellVal.kont k)) => Process.call fuel p k rt1
      | (rt1, _) => rt1.panic
  | Callback.presentElse p c, _, rt =>
      match rt.takeCell c with
      | (rt1, some (CellVal.kont k)) => Process.call fuel p k rt1
      | (rt1, _) => rt1.panic
  | Callback.presentMutIf cIf cElse cSig cNext, _, rt =>
      match rt.takeCell cIf with
      | (rt1, some (CellVal.proc p)) =>
          ProcessMut.call_mut fuel p (Kont.presentIfInner cSig cElse cNext) rt1
      | (rt1, _) => rt1.panic
  | Callback.presentMutElse cIf cElse cSig cNext, _, rt =>
      match rt.takeCell cElse with
      | (rt1, some (CellVal.proc p)) =>
          ProcessMut.call_mut fuel p (Kont.presentElseInner cSig cIf cNext) rt1
      | (rt1, _) => rt1.panic

/-- Modelled from the spec (section 5): run the ready queue of the
current instant to exhaustion (fuel-bounded; firing a callback may make
further callbacks ready). -/
def drain : Nat → RT → RT
  | 0, rt => if rt.curQ.isEmpty then rt else { rt with outOfFuel := true }
  | Nat.succ fuel, rt =>
      match rt.curQ with
      | [] => rt
      | (cb, v) :: rest => drain fuel (fireCallback fuel cb v { rt with curQ := rest })

/-- Modelled from the spec (sections 5, 6): the end-of-instant sweep.
Every `later_on_present` registration whose signal is present becomes
ready for the next instant, carrying the signal's accumulated value;
every `later_on_absent` registration whose signal was never emitted
becomes ready for the next instant; `on_present` registrations whose
signal stayed absent are dropped (presence state is scoped to one
instant); all signal state is reset. -/
def RT.endInstant (rt : RT) : RT :=
  { rt with
    sigs := fun _ => ⟨false, 0⟩
    curQ := rt.curQ
      ++ rt.laterOnPresentW.filterMap
           (fun e => if (rt.sigs e.1).present then some (e.2, (rt.sigs e.1).value) else none)
      ++ rt.laterOnAbsentW.filterMap
           (fun e => if (rt.sigs e.1).present then none else some (e.2, 0))
    onPresentW := []
    laterOnPresentW := []
    laterOnAbsentW := [] }

/-- Run one full instant: apply the external emissions for this instant
(the environment emitting signals), drain the ready queue, then perform
the end-of-instant sweep. -/
def runInstant (fuel : Nat) (ems : List (Nat × Nat)) (rt : RT) : RT :=
  RT.endInstant (drain fuel (ems.foldl (fun r e => r.emit e.1 e.2) rt))

/-- Run a sequence of instants, each with its list of external
emissions. -/
def runInstants (fuel : Nat) : List (List (Nat × Nat)) → RT → RT
  | [], rt => rt
  | ems :: rest, rt => runInstants fuel rest (runInstant fuel ems rt)

/-- Embedding of `Signal::emit_value` (lines 29-31).  The source
constructor only builds the `EmitProcess` struct from its arguments;
the runtime state is threaded through to make that observable. -/
def Signal.emit_value (s v : Nat) (rt : RT) : Proc × RT :=
  (Proc.emitProcess s v, rt)

/-- Embedding of `Signal::await` (lines 35-40): builds the
`AwaitProcess` struct, nothing else. -/
def Signal.await (s : Nat) (rt : RT) : Proc × RT :=
  (Proc.awaitProcess s, rt)

/-- Embedding of `Signal::await_immediate` (lines 44-49): builds the
`AwaitImmediateProcess` struct, nothing else. -/
def Signal.await_immediate (s : Nat) (rt : RT) : Proc × RT :=
  (Proc.awaitImmediateProcess s, rt)

/-- Embedding of `Signal::present` (lines 55-68): builds the
`PresentProcess` struct from the signal and the two branch
sub-processes, nothing else. -/
def Signal.present (s : Nat) (p1 p2 : Proc) (rt : RT) : Proc × RT :=
  (Proc.presentProcess s p1 p2, rt)

/-- Iterate `EmitProcess::call_mut` with the external continuation `n`
times, each round re-running the emit process that the previous round
handed back (which, per the source, is `signal.emit_value(value)` again). -/
def iterEmitMut (fuel s v : Nat) : Nat → RT → RT
  | 0, rt => rt
  | Nat.succ n, rt =>
      iterEmitMut fuel s v n
        (ProcessMut.call_mut fuel (Proc.emitProcess s v) Kont.topMut rt)

/-- C8: the constructors `emit_value`, `await`, `await_immediate` and
`present` only build the combinator value from their arguments: the
runtime state (signal presence/value, queues, operation log) is returned
unchanged — no `SignalRuntimeRef` operation happens until the resulting
process's `call`/`call_mut` is invoked.  (In the Rust source this purity
is even enforced by the signatures: the constructors receive no
`&mut Runtime`.) -/
theorem signal_constructors_pure :
    ∀ (s v : Nat) (p1 p2 : Proc) (rt : RT),
      Signal.emit_value s v rt = (Proc.emitProcess s v, rt)
      ∧ Signal.await s rt = (Proc.awaitProcess s, rt)
      ∧ Signal.await_immediate s rt = (Proc.awaitImmediateProcess s, rt)
      ∧ Signal.present s p1 p2 rt = (Proc.presentProcess s p1 p2, rt)
      ∧ (Signal.emit_value s v rt).2.log = rt.log
      ∧ (Signal.present s p1 p2 rt).2.sigs = rt.sigs := by
  intro s v p1 p2 rt
  exact ⟨rfl, rfl, rfl, rfl, rfl, rfl⟩

/-- C6: `EmitProcess::call` first emits the stored value on the signal's
runtime — making the signal present with the value folded in — and then
synchronously invokes the continuation, within the same invocation: the
probe continuation fires (one output record) and already observes the
signal present, the operation log grows by exactly the emission (so no
callback is registered), and the deferred registration queues are
untouched. -/
theorem emit_call_synchronous :
    ∀ (fuel s v : Nat) (rt : RT),
      (Process.call fuel (Proc.emitProcess s v) (Kont.probe s) rt).output
          = rt.output ++ [(none, 1)]
      ∧ (Process.call fuel (Proc.emitProcess s v) (Kont.probe s) rt).log
          = rt.log ++ [RegEvent.emitEv s v]
      ∧ ((Process.call fuel (Proc.emitProcess s v) (Kont.probe s) rt).sigs s).present = true
      ∧ ((Process.call fuel (Proc.emitProcess s v) (Kont.probe s) rt).sigs s).value
          = (rt.sigs s).value + v
      ∧ (Process.call fuel (Proc.emitProcess s v) (Kont.probe s) rt).laterOnPresentW
          = rt.laterOnPresentW
      ∧ (Process.call fuel (Proc.emitProcess s v) (Kont.probe s) rt).laterOnAbsentW
          = rt.laterOnAbsentW
      ∧ (Process.call fuel (Proc.emitProcess s v) (Kont.probe s) rt).panicked
          = rt.panicked := by
  intro fuel s v rt
  refine ⟨?_, ?_, ?_, ?_, ?_, ?_, ?_⟩ <;>
    simp [Process.call, invokeKont, RT.emit]

/-- C9: one invocation of `PresentProcess::call` or
`PresentProcess::call_mut` performs exactly two `SignalRuntimeRef`
operations before returning, in this order: an `on_present` registration
for the presence branch, then a `later_on_absent` registration for the
absence branch.  In particular it never emits the signal (signal state
is unchanged), invokes no continuation (output unchanged), and adds no
`later_on_present` registration. -/
theorem present_two_registrations :
    ∀ (fuel s : Nat) (p1 p2 : Proc) (k : Kont) (rt : RT),
      (Process.call fuel (Proc.presentProcess s p1 p2) k rt).log
          = rt.log ++ [RegEvent.onPresentEv s, RegEvent.laterOnAbsentEv s]
      ∧ (ProcessMut.call_mut fuel (Proc.presentProcess s p1 p2) k rt).log
          = rt.log ++ [RegEvent.onPresentEv s, RegEvent.laterOnAbsentEv s]
      ∧ (Process.call fuel (Proc.presentProcess s p1 p2) k rt).sigs = rt.sigs
      ∧ (ProcessMut.call_mut fuel (Proc.presentProcess s p1 p2) k rt).sigs = rt.sigs
      ∧ (Process.call fuel (Proc.presentProcess s p1 p2) k rt).output = rt.output
      ∧ (ProcessMut.call_mut fuel (Proc.presentProcess s p1 p2) k rt).output = rt.output
      ∧ (Process.call fuel (Proc.presentProcess s p1 p2) k rt).laterOnPresentW
          = rt.laterOnPresentW
      ∧ (ProcessMut.call_mut fuel (Proc.presentProcess s p1 p2) k rt).laterOnPresentW
          = rt.laterOnPresentW := by
  intro fuel s p1 p2 k rt
  by_cases h : (rt.sigs s).present <;>
    refine ⟨?_, ?_, ?_, ?_, ?_, ?_, ?_, ?_⟩ <;>
      simp [Process.call, ProcessMut.call_mut, RT.alloc, RT.on_present,
            RT.later_on_absent, h]

/-- C4: `AwaitImmediateProcess::call` registers its continuation via
`on_present` and `AwaitProcess::call` via `later_on_present` (the log
conjuncts); consequently, in the modelled runtime, a process waiting
through `await_immediate` resumes within the very instant in which the
signal is emitted, with value `()`, while a process waiting through
`await` does not resume during that instant but at the start of the
following one, receiving the signal's accumulated value. -/
theorem await_timing :
    ∀ (fuel s v : Nat) (k : Kont) (rt : RT),
      (Process.call fuel (Proc.awaitImmediateProcess s) k rt).log
          = rt.log ++ [RegEvent.onPresentEv s]
      ∧ (Process.call fuel (Proc.awaitProcess s) k rt).log
          = rt.log ++ [RegEvent.laterOnPresentEv s]
      ∧ (drain 9 (RT.emit
            (Process.call 9 (Proc.awaitImmediateProcess 0) Kont.top RT.init) 0 v)).output
          = [(none, 0)]
      ∧ (drain 9 (RT.emit
            (Process.call 9 (Proc.awaitProcess 0) Kont.top RT.init) 0 v)).output
          = []
      ∧ (drain 9 (RT.endInstant (drain 9 (RT.emit
            (Process.call 9 (Proc.awaitProcess 0) Kont.top RT.init) 0 v)))).output
          = [(none, v)] := by
  intro fuel s v k rt
  by_cases h : (rt.sigs s).present <;>
    refine ⟨?_, ?_, ?_, ?_, ?_⟩ <;>
      simp [Process.call, RT.on_present, RT.later_on_present, RT.emit, RT.init,
            drain, fireCallback, invokeKont, RT.endInstant, h]

/-- Helper for C5: one `EmitProcess::call_mut` round appends one output
record carrying the unchanged emit process, and one emission event. -/
theorem emit_call_mut_step (fuel s v : Nat) (rt : RT) :
    (ProcessMut.call_mut fuel (Proc.emitProcess s v) Kont.topMut rt).output
        = rt.output ++ [(some (Proc.emitProcess s v), 0)]
    ∧ (ProcessMut.call_mut fuel (Proc.emitProcess s v) Kont.topMut rt).log
        = rt.log ++ [RegEvent.emitEv s v] := by
  constructor <;> simp [ProcessMut.call_mut, invokeKont, RT.emit]

/-- Helper for C5: output and log of `n` replay rounds. -/
theorem iterEmitMut_spec (fuel s v : Nat) :
    ∀ (n : Nat) (rt : RT),
      (iterEmitMut fuel s v n rt).output
          = rt.output ++ List.replicate n (some (Proc.emitProcess s v), 0)
      ∧ (iterEmitMut fuel s v n rt).log
          = rt.log ++ List.replicate n (RegEvent.emitEv s v) := by
  intro n
  induction n with
  | zero => intro rt; simp [iterEmitMut]
  | succ m ih =>
      intro rt
      have h := emit_call_mut_step fuel s v rt
      have h2 := ih (ProcessMut.call_mut fuel (Proc.emitProcess s v) Kont.topMut rt)
      refine ⟨?_, ?_⟩ <;>
        simp [iterEmitMut, h2.1, h2.2, h.1, h.2, List.replicate_succ]

/-- C5: every `EmitProcess::call_mut` invocation emits the stored value
on the signal's runtime, marks the signal present with the value folded
in, and hands the continuation a process identical to the original
(`signal.emit_value(value)` over the same signal with the same value);
therefore replaying the emit process any number `n` of times emits the
same value on every round and hands back the identical process every
round. -/
theorem emit_call_mut_replay :
    ∀ (fuel s v n : Nat) (rt : RT),
      (ProcessMut.call_mut fuel (Proc.emitProcess s v) Kont.topMut rt).output
          = rt.output ++ [(some (Proc.emitProcess s v), 0)]
      ∧ (ProcessMut.call_mut fuel (Proc.emitProcess s v) Kont.topMut rt).log
          = rt.log ++ [RegEvent.emitEv s v]
      ∧ ((ProcessMut.call_mut fuel (Proc.emitProcess s v) Kont.topMut rt).sigs s).present
          = true
      ∧ ((ProcessMut.call_mut fuel (Proc.emitProcess s v) Kont.topMut rt).sigs s).value
          = (rt.sigs s).value + v
      ∧ (iterEmitMut fuel s v n rt).output
          = rt.output ++ List.replicate n (some (Proc.emitProcess s v), 0)
      ∧ (iterEmitMut fuel s v n rt).log
          = rt.log ++ List.replicate n (RegEvent.emitEv s v) := by
  intro fuel s v n rt
  refine ⟨(emit_call_mut_step fuel s v rt).1, (emit_call_mut_step fuel s v rt).2,
          ?_, ?_, (iterEmitMut_spec fuel s v n rt).1, (iterEmitMut_spec fuel s v n rt).2⟩ <;>
    simp [ProcessMut.call_mut, invokeKont, RT.emit]

/-- C7: `AwaitProcess::call_mut` performs the same `later_on_present`
registration as `call` (same log event, one appended registration
carrying the wrapper continuation), and when that registration fires
with the signal's value `v`, the outer continuation receives
`(s.await(), v)` — a freshly built await process over (a clone of) the
same signal, with no other state change.  Symmetrically,
`AwaitImmediateProcess::call_mut` registers via `on_present` and hands
back `(s.await_immediate(), ())`. -/
theorem await_call_mut_fresh_rebuild :
    ∀ (fuel s : Nat) (k : Kont) (rt : RT),
      (ProcessMut.call_mut fuel (Proc.awaitProcess s) k rt).laterOnPresentW
          = rt.laterOnPresentW ++ [(s, Callback.invoke (Kont.awaitWrap s k))]
      ∧ (ProcessMut.call_mut fuel (Proc.awaitProcess s) k rt).log
          = rt.log ++ [RegEvent.laterOnPresentEv s]
      ∧ (Process.call fuel (Proc.awaitProcess s) k rt).log
          = rt.log ++ [RegEvent.laterOnPresentEv s]
      ∧ (∀ (g v : Nat) (rt2 : RT),
          fireCallback (g + 1) (Callback.invoke (Kont.awaitWrap s Kont.topMut)) v rt2
            = { rt2 with output := rt2.output ++ [(some (Proc.awaitProcess s), v)] })
      ∧ (ProcessMut.call_mut fuel (Proc.awaitImmediateProcess s) k rt).log
          = rt.log ++ [RegEvent.onPresentEv s]
      ∧ (Process.call fuel (Proc.awaitImmediateProcess s) k rt).log
          = rt.log ++ [RegEvent.onPresentEv s]
      ∧ ((rt.sigs s).present = false →
          (ProcessMut.call_mut fuel (Proc.awaitImmediateProcess s) k rt).onPresentW
            = rt.onPresentW ++ [(s, Callback.invoke (Kont.awaitImmWrap s k))])
      ∧ (∀ (g v : Nat) (rt2 : RT),
          fireCallback (g + 1) (Callback.invoke (Kont.awaitImmWrap s Kont.topMut)) v rt2
            = { rt2 with output := rt2.output ++ [(some (Proc.awaitImmediateProcess s), 0)] }) := by
  intro fuel s k rt
  by_cases h : (rt.sigs s).present <;>
    refine ⟨?_, ?_, ?_, ?_, ?_, ?_, ?_, ?_⟩ <;>
      simp [ProcessMut.call_mut, Process.call, RT.later_on_present, RT.on_present,
            fireCallback, invokeKont, h]

/-- Witness for C7 at signal 0, fuel 1, on the initial runtime state. -/
theorem await_call_mut_fresh_rebuild_witness :
    (RT.init.sigs 0).present = false
    ∧ (ProcessMut.call_mut 1 (Proc.awaitImmediateProcess 0) Kont.topMut RT.init).onPresentW
        = RT.init.onPresentW ++ [(0, Callback.invoke (Kont.awaitImmWrap 0 Kont.topMut))]
    ∧ fireCallback 1 (Callback.invoke (Kont.awaitWrap 0 Kont.topMut)) 7 RT.init
        = { RT.init with output := RT.init.output ++ [(some (Proc.awaitProcess 0), 7)] } := by
  have h := await_call_mut_fresh_rebuild 1 0 Kont.topMut RT.init
  exact ⟨rfl, h.2.2.2.2.2.2.1 rfl, h.2.2.2.1 0 7 RT.init⟩

/-- C2: mutual exclusion of the two branches of a `PresentProcess`
invocation.  After `call`, the shared cell holds the continuation; the
branch callback that fires takes it successfully (`take()` returns
`Some`, the `unwrap` does not panic) and runs exactly its own
sub-process with the original continuation, leaving the cell empty
(conjuncts 1-3).  Under the modelled runtime — where per instant either
presence is established (`on_present` callbacks fire, `later_on_absent`
ones are discarded at the sweep) or it is not (the converse) — exactly
one of `process_if`/`process_else` executes and the continuation is
invoked exactly once, with no panic, for both `call` and `call_mut`
(conjuncts 4-5: full two-instant runs for both the emitted and the
never-emitted schedule; the log shows exactly one branch's emission and
the output exactly one continuation invocation). -/
theorem present_mutual_exclusion :
    ∀ (fuel s : Nat) (p1 p2 : Proc) (k : Kont) (rt : RT),
      (Process.call fuel (Proc.presentProcess s p1 p2) k rt).cells rt.nextCell
          = some (CellVal.kont k)
      ∧ (∀ (g v c : Nat) (p : Proc) (k2 : Kont) (rt1 : RT),
          rt1.cells c = some (CellVal.kont k2) →
          fireCallback g (Callback.presentIf p c) v rt1
            = Process.call g p k2
                { rt1 with cells := fun n => if n = c then none else rt1.cells n })
      ∧ (∀ (g v c : Nat) (p : Proc) (k2 : Kont) (rt1 : RT),
          rt1.cells c = some (CellVal.kont k2) →
          fireCallback g (Callback.presentElse p c) v rt1
            = Process.call g p k2
                { rt1 with cells := fun n => if n = c then none else rt1.cells n })
      ∧ (∀ b : Bool,
          (runInstants 9 [if b then [(0, 1)] else [], []]
              (Process.call 9
                (Proc.presentProcess 0 (Proc.emitProcess 1 5) (Proc.emitProcess 2 7))
                Kont.top RT.init)).output = [(none, 0)]
          ∧ (runInstants 9 [if b then [(0, 1)] else [], []]
              (Process.call 9
                (Proc.presentProcess 0 (Proc.emitProcess 1 5) (Proc.emitProcess 2 7))
                Kont.top RT.init)).panicked = false
          ∧ (runInstants 9 [if b then [(0, 1)] else [], []]
              (Process.call 9
                (Proc.presentProcess 0 (Proc.emitProcess 1 5) (Proc.emitProcess 2 7))
                Kont.top RT.init)).outOfFuel = false
          ∧ (runInstants 9 [if b then [(0, 1)] else [], []]
              (Process.call 9
                (Proc.presentProcess 0 (Proc.emitProcess 1 5) (Proc.emitProcess 2 7))
                Kont.top RT.init)).log
              = if b then
                  [RegEvent.onPresentEv 0, RegEvent.laterOnAbsentEv 0,
                   RegEvent.emitEv 0 1, RegEvent.emitEv 1 5]
                else
                  [RegEvent.onPresentEv 0, RegEvent.laterOnAbsentEv 0,
                   RegEvent.emitEv 2 7])
      ∧ (∀ b : Bool,
          (runInstants 9 [if b then [(0, 1)] else [], []]
              (ProcessMut.call_mut 9
                (Proc.presentProcess 0 (Proc.emitProcess 1 5) (Proc.emitProcess 2 7))
                Kont.topMut RT.init)).output
            = [(some (Proc.presentProcess 0 (Proc.emitProcess 1 5) (Proc.emitProcess 2 7)), 0)]
          ∧ (runInstants 9 [if b then [(0, 1)] else [], []]
              (ProcessMut.call_mut 9
                (Proc.presentProcess 0 (Proc.emitProcess 1 5) (Proc.emitProcess 2 7))
                Kont.topMut RT.init)).panicked = false
          ∧ (runInstants 9 [if b then [(0, 1)] else [], []]
              (ProcessMut.call_mut 9
                (Proc.presentProcess 0 (Proc.emitProcess 1 5) (Proc.emitProcess 2 7))
                Kont.topMut RT.init)).outOfFuel = false) := by
  intro fuel s p1 p2 k rt
  refine ⟨?_, ?_, ?_, ?_, ?_⟩
  · by_cases h : (rt.sigs s).present <;>
      simp [Process.call, RT.alloc, RT.on_present, RT.later_on_absent, h]
  · intro g v c p k2 rt1 h
    simp [fireCallback, RT.takeCell, h]
  · intro g v c p k2 rt1 h
    simp [fireCallback, RT.takeCell, h]
  · intro b; cases b <;> exact ⟨rfl, rfl, rfl, rfl⟩
  · intro b; cases b <;> exact ⟨rfl, rfl, rfl⟩

/-- Witness for C2: the firing conjuncts applied at a concrete state
whose cell 0 holds the external continuation. -/
theorem present_mutual_exclusion_witness :
    ({ RT.init with cells := fun n => if n = 0 then some (CellVal.kont Kont.top) else none } : RT).cells 0
        = some (CellVal.kont Kont.top)
    ∧ fireCallback 3 (Callback.presentIf (Proc.emitProcess 1 5) 0) 0
        { RT.init with cells := fun n => if n = 0 then some (CellVal.kont Kont.top) else none }
      = Process.call 3 (Proc.emitProcess 1 5) Kont.top
          { ({ RT.init with cells := fun n => if n = 0 then some (CellVal.kont Kont.top) else none } : RT) with
            cells := fun n => if n = 0 then none else
              ({ RT.init with cells := fun n => if n = 0 then some (CellVal.kont Kont.top) else none } : RT).cells n } := by
  refine ⟨rfl, ?_⟩
  exact (present_mutual_exclusion 3 0 (Proc.emitProcess 1 5) (Proc.emitProcess 2 7)
      Kont.top RT.init).2.1 3 0 0 (Proc.emitProcess 1 5) Kont.top
      { RT.init with cells := fun n => if n = 0 then some (CellVal.kont Kont.top) else none }
      rfl

/-- C1: state-retention asymmetry of `PresentProcess::call_mut`.  The
call fills four shared cells — the signal clone at `nextCell`, the
continuation at `nextCell+1`, the unstarted `process_if` at
`nextCell+2`, the unstarted `process_else` at `nextCell+3` (conjunct 1).
The presence callback takes `process_if` and runs its `call_mut` with
the `presentIfInner` continuation (conjunct 2); when `process_if`'s
`call_mut` hands over its continued process `p` and value `v`, the
outer continuation receives `present(p, process_else)` with
`process_else` still in its original unstarted form (conjunct 4).
Symmetrically, if the absence branch fires, the outer continuation
receives `present(process_if, p)` with `process_if` original and `p`
the continued `process_else` (conjuncts 3 and 5). -/
theorem present_call_mut_state_retention :
    ∀ (fuel s : Nat) (p1 p2 : Proc) (k : Kont) (rt : RT),
      ((ProcessMut.call_mut fuel (Proc.presentProcess s p1 p2) k rt).cells rt.nextCell
          = some (CellVal.sig s)
       ∧ (ProcessMut.call_mut fuel (Proc.presentProcess s p1 p2) k rt).cells (rt.nextCell + 1)
          = some (CellVal.kont k)
       ∧ (ProcessMut.call_mut fuel (Proc.presentProcess s p1 p2) k rt).cells (rt.nextCell + 2)
          = some (CellVal.proc p1)
       ∧ (ProcessMut.call_mut fuel (Proc.presentProcess s p1 p2) k rt).cells (rt.nextCell + 3)
          = some (CellVal.proc p2))
      ∧ (∀ (g v cIf cElse cSig cNext : Nat) (p : Proc) (rt1 : RT),
          rt1.cells cIf = some (CellVal.proc p) →
          fireCallback g (Callback.presentMutIf cIf cElse cSig cNext) v rt1
            = ProcessMut.call_mut g p (Kont.presentIfInner cSig cElse cNext)
                { rt1 with cells := fun n => if n = cIf then none else rt1.cells n })
      ∧ (∀ (g v cIf cElse cSig cNext : Nat) (p : Proc) (rt1 : RT),
          rt1.cells cElse = some (CellVal.proc p) →
          fireCallback g (Callback.presentMutElse cIf cElse cSig cNext) v rt1
            = ProcessMut.call_mut g p (Kont.presentElseInner cSig cIf cNext)
                { rt1 with cells := fun n => if n = cElse then none else rt1.cells n })
      ∧ (∀ (g v cSig cElse cNext : Nat) (p : Proc) (rt2 : RT),
          cSig ≠ cElse → cSig ≠ cNext → cElse ≠ cNext →
          rt2.cells cSig = some (CellVal.sig s) →
          rt2.cells cElse = some (CellVal.proc p2) →
          rt2.cells cNext = some (CellVal.kont Kont.topMut) →
          (invokeKont (g + 1) (Kont.presentIfInner cSig cElse cNext) (some p) v rt2).output
            = rt2.output ++ [(some (Proc.presentProcess s p p2), v)])
      ∧ (∀ (g v cSig cIf cNext : Nat) (p : Proc) (rt2 : RT),
          cSig ≠ cIf → cSig ≠ cNext → cIf ≠ cNext →
          rt2.cells cSig = some (CellVal.sig s) →
          rt2.cells cIf = some (CellVal.proc p1) →
          rt2.cells cNext = some (CellVal.kont Kont.topMut) →
          (invokeKont (g + 1) (Kont.presentElseInner cSig cIf cNext) (some p) v rt2).output
            = rt2.output ++ [(some (Proc.presentProcess s p1 p), v)]) := by
  intro fuel s p1 p2 k rt
  have e1 : rt.nextCell ≠ rt.nextCell + 1 + 1 + 1 := by omega
  have e2 : rt.nextCell ≠ rt.nextCell + 1 + 1 := by omega
  have e3 : rt.nextCell ≠ rt.nextCell + 1 := by omega
  have e4 : rt.nextCell + 1 ≠ rt.nextCell + 1 + 1 + 1 := by omega
  have e5 : rt.nextCell + 1 ≠ rt.nextCell + 1 + 1 := by omega
  have e6 : rt.nextCell + 2 ≠ rt.nextCell + 1 + 1 + 1 := by omega
  have e7 : rt.nextCell + 2 = rt.nextCell + 1 + 1 := by omega
  have e8 : rt.nextCell + 3 = rt.nextCell + 1 + 1 + 1 := by omega
  refine ⟨⟨?_, ?_, ?_, ?_⟩, ?_, ?_, ?_, ?_⟩
  · by_cases h : (rt.sigs s).present <;>
      simp [ProcessMut.call_mut, RT.alloc, RT.on_present, RT.later_on_absent, h,
            e1, e2, e3]
  · by_cases h : (rt.sigs s).present <;>
      simp [ProcessMut.call_mut, RT.alloc, RT.on_present, RT.later_on_absent, h,
            e4, e5]
  · by_cases h : (rt.sigs s).present <;>
      simp [ProcessMut.call_mut, RT.alloc, RT.on_present, RT.later_on_absent, h,
            e6, e7]
  · by_cases h : (rt.sigs s).present <;>
      simp [ProcessMut.call_mut, RT.alloc, RT.on_present, RT.later_on_absent, h,
            e8]
  · intro g v cIf cElse cSig cNext p rt1 h
    simp [fireCallback, RT.takeCell, h]
  · intro g v cIf cElse cSig cNext p rt1 h
    simp [fireCallback, RT.takeCell, h]
  · intro g v cSig cElse cNext p rt2 h1 h2 h3 h4 h5 h6
    simp [invokeKont, RT.takeCell, h4, h5, h6, Ne.symm h1, Ne.symm h2, Ne.symm h3]
  · intro g v cSig cIf cNext p rt2 h1 h2 h3 h4 h5 h6
    simp [invokeKont, RT.takeCell, h4, h5, h6, Ne.symm h1, Ne.symm h2, Ne.symm h3]

/-- Witness for C1: the inner continuations applied at a concrete state
whose cells 0, 1 and 3 hold the signal, the outer continuation and the
respective not-taken branch. -/
theorem present_call_mut_state_retention_witness :
    ((0 : Nat) ≠ 3) ∧ ((0 : Nat) ≠ 1) ∧ ((3 : Nat) ≠ 1)
    ∧ (invokeKont 2 (Kont.presentIfInner 0 3 1) (some (Proc.emitProcess 9 9)) 5
        { RT.init with cells := fun n =>
            if n = 0 then some (CellVal.sig 0)
            else if n = 3 then some (CellVal.proc (Proc.emitProcess 2 2))
            else if n = 1 then some (CellVal.kont Kont.topMut) else none }).output
      = ({ RT.init with cells := fun n =>
            if n = 0 then some (CellVal.sig 0)
            else if n = 3 then some (CellVal.proc (Proc.emitProcess 2 2))
            else if n = 1 then some (CellVal.kont Kont.topMut) else none } : RT).output
        ++ [(some (Proc.presentProcess 0 (Proc.emitProcess 9 9) (Proc.emitProcess 2 2)), 5)] := by
  refine ⟨by decide, by decide, by decide, ?_⟩
  exact (present_call_mut_state_retention 1 0 (Proc.emitProcess 1 1) (Proc.emitProcess 2 2)
      Kont.topMut RT.init).2.2.2.1 1 5 0 3 1 (Proc.emitProcess 9 9)
      { RT.init with cells := fun n =>
          if n = 0 then some (CellVal.sig 0)
          else if n = 3 then some (CellVal.proc (Proc.emitProcess 2 2))
          else if n = 1 then some (CellVal.kont Kont.topMut) else none }
      (by decide) (by decide) (by decide) rfl rfl rfl

/-- C10: value pass-through of `PresentProcess`.  (Both branches are
processes of the one process type of the embedding, mirroring the Rust
constraint `P1: Process<Value = PV>, P2: Process<Value = PV>`: they
produce values of the same type.)  In `call`, the fired branch's
sub-process is run directly with the taken continuation itself, with no
wrapper in between (conjuncts 1-2); in `call_mut`, the inner
continuation passes the pair `(reconstructed present process, v)` on to
the outer continuation with the branch value `v` completely unmodified,
for both the presence and the absence branch and for an arbitrary outer
continuation (conjuncts 3-4). -/
theorem present_value_passthrough :
    ∀ (g v : Nat) (p : Proc),
      (∀ (c : Nat) (k2 : Kont) (rt1 : RT),
          rt1.cells c = some (CellVal.kont k2) →
          fireCallback g (Callback.presentIf p c) v rt1
            = Process.call g p k2
                { rt1 with cells := fun n => if n = c then none else rt1.cells n })
      ∧ (∀ (c : Nat) (k2 : Kont) (rt1 : RT),
          rt1.cells c = some (CellVal.kont k2) →
          fireCallback g (Callback.presentElse p c) v rt1
            = Process.call g p k2
                { rt1 with cells := fun n => if n = c then none else rt1.cells n })
      ∧ (∀ (cSig cElse cNext s2 : Nat) (pe : Proc) (k2 : Kont) (rt2 : RT),
          cSig ≠ cElse → cSig ≠ cNext → cElse ≠ cNext →
          rt2.cells cSig = some (CellVal.sig s2) →
          rt2.cells cElse = some (CellVal.proc pe) →
          rt2.cells cNext = some (CellVal.kont k2) →
          invokeKont (g + 1) (Kont.presentIfInner cSig cElse cNext) (some p) v rt2
            = invokeKont g k2 (some (Proc.presentProcess s2 p pe)) v
                { rt2 with cells := fun n =>
                    if n = cNext then none
                    else if n = cElse then none
                    else if n = cSig then none
                    else rt2.cells n })
      ∧ (∀ (cSig cIf cNext s2 : Nat) (pi : Proc) (k2 : Kont) (rt2 : RT),
          cSig ≠ cIf → cSig ≠ cNext → cIf ≠ cNext →
          rt2.cells cSig = some (CellVal.sig s2) →
          rt2.cells cIf = some (CellVal.proc pi) →
          rt2.cells cNext = some (CellVal.kont k2) →
          invokeKont (g + 1) (Kont.presentElseInner cSig cIf cNext) (some p) v rt2
            = invokeKont g k2 (some (Proc.presentProcess s2 pi p)) v
                { rt2 with cells := fun n =>
                    if n = cNext then none
                    else if n = cIf then none
                    else if n = cSig then none
                    else rt2.cells n }) := by
  intro g v p
  refine ⟨?_, ?_, ?_, ?_⟩
  · intro c k2 rt1 h
    simp [fireCallback, RT.takeCell, h]
  · intro c k2 rt1 h
    simp [fireCallback, RT.takeCell, h]
  · intro cSig cElse cNext s2 pe k2 rt2 h1 h2 h3 h4 h5 h6
    simp [invokeKont, RT.takeCell, h4, h5, h6, Ne.symm h1, Ne.symm h2, Ne.symm h3]
  · intro cSig cIf cNext s2 pi k2 rt2 h1 h2 h3 h4 h5 h6
    simp [invokeKont, RT.takeCell, h4, h5, h6, Ne.symm h1, Ne.symm h2, Ne.symm h3]

/-- Witness for C10: the presence-branch inner continuation at a
concrete state delivers the branch value 42 unmodified. -/
theorem present_value_passthrough_witness :
    ((0 : Nat) ≠ 3) ∧ ((0 : Nat) ≠ 1) ∧ ((3 : Nat) ≠ 1)
    ∧ invokeKont 2 (Kont.presentIfInner 0 3 1) (some (Proc.awaitProcess 4)) 42
        { RT.init with cells := fun n =>
            if n = 0 then some (CellVal.sig 6)
            else if n = 3 then some (CellVal.proc (Proc.emitProcess 2 2))
            else if n = 1 then some (CellVal.kont Kont.top) else none }
      = invokeKont 1 Kont.top
          (some (Proc.presentProcess 6 (Proc.awaitProcess 4) (Proc.emitProcess 2 2))) 42
          { ({ RT.init with cells := fun n =>
                if n = 0 then some (CellVal.sig 6)
                else if n = 3 then some (CellVal.proc (Proc.emitProcess 2 2))
                else if n = 1 then some (CellVal.kont Kont.top) else none } : RT) with
            cells := fun n =>
              if n = 1 then none
              else if n = 3 then none
              else if n = 0 then none
              else ({ RT.init with cells := fun n =>
                        if n = 0 then some (CellVal.sig 6)
                        else if n = 3 then some (CellVal.proc (Proc.emitProcess 2 2))
                        else if n = 1 then some (CellVal.kont Kont.top) else none } : RT).cells n } := by
  refine ⟨by decide, by decide, by decide, ?_⟩
  exact (present_value_passthrough 1 42 (Proc.awaitProcess 4)).2.2.1 0 3 1 6
      (Proc.emitProcess 2 2) Kont.top
      { RT.init with cells := fun n =>
          if n = 0 then some (CellVal.sig 6)
          else if n = 3 then some (CellVal.proc (Proc.emitProcess 2 2))
          else if n = 1 then some (CellVal.kont Kont.top) else none }
      (by decide) (by decide) (by decide) rfl rfl rfl

/-- C3 counterexample: the claim says the other branch's callback, if it
fires after the continuation cell has already been consumed, is a no-op
that "does not fail".  Concretely: `present` over signal 0 with two emit
branches, the presence callback fires and consumes the continuation,
then the absence callback fires — and the program panics
(`next_2.take().unwrap()` unwraps a `None`), so it does fail. -/
theorem present_second_fire_not_noop_cex :
    (fireCallback 5
        (Callback.presentElse (Proc.emitProcess 1 1) 0) 0
        (fireCallback 5 (Callback.presentIf (Proc.emitProcess 1 1) 0) 0
          (Process.call 5
            (Proc.presentProcess 0 (Proc.emitProcess 1 1) (Proc.emitProcess 1 1))
            Kont.top RT.init))).panicked = true
    ∧ (fireCallback 5 (Callback.presentIf (Proc.emitProcess 1 1) 0) 0
        (Process.call 5
          (Proc.presentProcess 0 (Proc.emitProcess 1 1) (Proc.emitProcess 1 1))
          Kont.top RT.init)).panicked = false := by
  exact ⟨rfl, rfl⟩

/-- C3 amended: in `PresentProcess::call`, once one branch has taken and
invoked the shared continuation cell, the other branch's callback, if it
fires, does not invoke the continuation and does not run its
sub-process — the state is unchanged except that the `panicked` flag is
set: the `unwrap` of the empty cell panics instead of completing as a
silent no-op. -/
theorem present_second_fire_panics :
    ∀ (g v c : Nat) (p : Proc) (rt1 : RT),
      rt1.cells c = none →
      fireCallback g (Callback.presentIf p c) v rt1
        = { rt1 with
            cells := (fun n => if n = c then none else rt1.cells n)
            panicked := true }
      ∧ fireCallback g (Callback.presentElse p c) v rt1
        = { rt1 with
            cells := (fun n => if n = c then none else rt1.cells n)
            panicked := true } := by
  intro g v c p rt1 h
  constructor <;> simp [fireCallback, RT.takeCell, RT.panic, h]

/-- Witness for the amended C3 at the initial state, whose cells are all
empty. -/
theorem present_second_fire_panics_witness :
    (RT.init.cells 0 = none)
    ∧ fireCallback 2 (Callback.presentIf (Proc.emitProcess 1 1) 0) 0 RT.init
        = { RT.init with
            cells := (fun n => if n = 0 then none else RT.init.cells n)
            panicked := true } := by
  exact ⟨rfl, (present_second_fire_panics 2 0 0 (Proc.emitProcess 1 1) RT.init rfl).1⟩

end Reactrust
